import Mathlib

/-!
Verification of the minimal drug fetcher (`backend/data/minimal_drug_fetcher.py`).

The embedding models one raw API record (`RawRecord`) as an association list
from string keys to values, where a value is (per the data model) a string,
a list of strings, a nested mapping, or null.  The extraction helpers
`safe_get` and `safe_join`, the filter chain `process_drug`, the search-text
derivation `create_search_text`, the driver processing loop, and the
error-absorbing page fetcher are translated directly from the source.
Functions that can raise in Python (attribute errors on a non-mapping
`openfda` value) return `Except Unit`, with `.error ()` standing for a raised
exception.
-/

namespace MinimalDrugFetcher

/-- Value stored at a key of a raw API record: null (Python `None`), a string
scalar, a list of strings, or a nested mapping. -/
inductive FVal where
  | null
  | s (v : String)
  | lst (xs : List String)
  | obj (m : List (String × FVal))

/-- Raw drug-label record as returned by the API: a mapping from string keys
to values. -/
abbrev RawRecord := List (String × FVal)

/-- Python `data.get(key)`: the value stored at `key`, or `none` when the key
is absent.  First binding wins, matching dict-key uniqueness. -/
def lookupKey (data : RawRecord) (key : String) : Option FVal :=
  (data.find? fun p => p.1 == key).map fun p => p.2

/-- Python `repr` of a value: strings are quoted, lists and dicts render
their elements recursively, `None` renders as the literal word. -/
def pyRepr : FVal → String
  | .null => "None"
  | .s v => "\x27" ++ v ++ "\x27"
  | .lst xs => "[" ++ String.intercalate ", " (xs.map fun x => "\x27" ++ x ++ "\x27") ++ "]"
  | .obj m => "\x7b" ++ String.intercalate ", " (m.attach.map fun p => "\x27" ++ p.1.1 ++ "\x27: " ++ pyRepr p.1.2) ++ "\x7d"
decreasing_by
  have h1 : sizeOf p.1 < sizeOf m := List.sizeOf_lt_of_mem p.2
  have h2 : sizeOf p.1.2 < sizeOf p.1 := by
    obtain ⟨a, b⟩ := p.1
    simp
  simp
  omega

/-- Python `str` on a value: the identity on strings, `repr`-rendering on
everything else (which is how `str` behaves on lists, dicts and `None`). -/
def pyStr : FVal → String
  | .s v => v
  | v => pyRepr v

/-- Embeds `MinimalDrugProcessor.safe_get`: return the stored value when it
is a scalar (stringified), the first element of a non-empty list, and the
default when the key is missing, the value is `None`, or the list is
empty. -/
def safe_get (data : RawRecord) (key : String) (default : String) : String :=
  match lookupKey data key with
  | none => default
  | some FVal.null => default
  | some (FVal.lst []) => default
  | some (FVal.lst (x :: _)) => x
  | some v => pyStr v

/-- Embeds `MinimalDrugProcessor.safe_join`: `data.get(key, [])`, then when
the value is a list join its truthy elements (stringified) with a comma and
a space; any non-list value yields the empty string. -/
def safe_join (data : RawRecord) (key : String) : String :=
  match (lookupKey data key).getD (FVal.lst []) with
  | FVal.lst xs => String.intercalate ", " ((xs.filter fun v => v ≠ "").map fun v => pyStr (FVal.s v))
  | _ => ""

/-- The allow-set of product types (`common_types` in the source). -/
def common_types : List String := ["HUMAN OTC DRUG", "HUMAN PRESCRIPTION DRUG"]

/-- Normalized drug record emitted by `process_drug`: the fixed set of
string-valued fields, grouped as in the source. -/
structure Drug where
  brand_name : String
  generic_name : String
  manufacturer : String
  product_type : String
  product_ndc : String
  package_ndc : String
  active_ingredients : String
  route : String
  purpose : String
  indications : String
  dosage : String
  warnings : String
  do_not_use : String
  stop_use : String
  ask_doctor : String
  when_using : String
  side_effects : String
  storage : String
  keep_away_children : String
  deriving DecidableEq

/-- The dictionary literally returned by `process_drug` in the source: every
key in source order, each value the extracted string. -/
def Drug.toDict (d : Drug) : List (String × FVal) :=
  [("brand_name", FVal.s d.brand_name),
   ("generic_name", FVal.s d.generic_name),
   ("manufacturer", FVal.s d.manufacturer),
   ("product_type", FVal.s d.product_type),
   ("product_ndc", FVal.s d.product_ndc),
   ("package_ndc", FVal.s d.package_ndc),
   ("active_ingredients", FVal.s d.active_ingredients),
   ("route", FVal.s d.route),
   ("purpose", FVal.s d.purpose),
   ("indications", FVal.s d.indications),
   ("dosage", FVal.s d.dosage),
   ("warnings", FVal.s d.warnings),
   ("do_not_use", FVal.s d.do_not_use),
   ("stop_use", FVal.s d.stop_use),
   ("ask_doctor", FVal.s d.ask_doctor),
   ("when_using", FVal.s d.when_using),
   ("side_effects", FVal.s d.side_effects),
   ("storage", FVal.s d.storage),
   ("keep_away_children", FVal.s d.keep_away_children)]

/-- Body of `MinimalDrugProcessor.process_drug` after the `openfda`
sub-mapping has been obtained (`raw_drug.get("openfda", {})`): the seven
filters in source order, then the emitted record. -/
def process_drug_core (raw : RawRecord) (openfda : RawRecord) : Option Drug :=
  let brand_name := safe_get openfda "brand_name" "Unknown"
  let generic_name := safe_get openfda "generic_name" ""
  let manufacturer := safe_get openfda "manufacturer_name" ""
  if brand_name = "Unknown" ∨ brand_name = "" then none
  else if openfda.isEmpty then none
  else
    let product_type := safe_get openfda "product_type" ""
    if product_type = "" then none
    else if product_type ∉ common_types then none
    else
      let product_ndc := safe_join openfda "product_ndc"
      let package_ndc := safe_join openfda "package_ndc"
      if product_ndc = "" ∧ package_ndc = "" then none
      else
        let substance_join := safe_join openfda "substance_name"
        let active_ingredients :=
          if substance_join = "" then safe_get raw "active_ingredient" "" else substance_join
        if active_ingredients = "" then none
        else
          let route := safe_join openfda "route"
          let purpose := safe_get raw "purpose" ""
          let indications := safe_get raw "indications_and_usage" ""
          if purpose = "" ∧ indications = "" then none
          else some
            { brand_name := brand_name
              generic_name := generic_name
              manufacturer := manufacturer
              product_type := product_type
              product_ndc := product_ndc
              package_ndc := package_ndc
              active_ingredients := active_ingredients
              route := route
              purpose := purpose
              indications := indications
              dosage := safe_get raw "dosage_and_administration" ""
              warnings := safe_get raw "warnings" ""
              do_not_use := safe_get raw "do_not_use" ""
              stop_use := safe_get raw "stop_use" ""
              ask_doctor := safe_get raw "ask_doctor" ""
              when_using := safe_get raw "when_using" ""
              side_effects := safe_get raw "adverse_reactions" ""
              storage := safe_get raw "storage_and_handling" ""
              keep_away_children := safe_get raw "keep_out_of_reach_of_children" "" }

/-- Embeds `MinimalDrugProcessor.process_drug`.  `raw.get("openfda", {})`
yields the empty mapping when the key is absent; when the stored value is
not a mapping, the subsequent attribute access raises in Python, modelled by
`.error ()`.  An accepted record is `.ok (some d)`, a rejected one
`.ok none`. -/
def process_drug (raw : RawRecord) : Except Unit (Option Drug) :=
  match lookupKey raw "openfda" with
  | some (FVal.obj m) => Except.ok (process_drug_core raw m)
  | none => Except.ok (process_drug_core raw [])
  | some _ => Except.error ()

/-- Variant of the `process_drug` body with filter 2 (the explicit
`openfda`-non-empty check) removed; used to state its redundancy. -/
def process_drug_core_noF2 (raw : RawRecord) (openfda : RawRecord) : Option Drug :=
  let brand_name := safe_get openfda "brand_name" "Unknown"
  let generic_name := safe_get openfda "generic_name" ""
  let manufacturer := safe_get openfda "manufacturer_name" ""
  if brand_name = "Unknown" ∨ brand_name = "" then none
  else
    let product_type := safe_get openfda "product_type" ""
    if product_type = "" then none
    else if product_type ∉ common_types then none
    else
      let product_ndc := safe_join openfda "product_ndc"
      let package_ndc := safe_join openfda "package_ndc"
      if product_ndc = "" ∧ package_ndc = "" then none
      else
        let substance_join := safe_join openfda "substance_name"
        let active_ingredients :=
          if substance_join = "" then safe_get raw "active_ingredient" "" else substance_join
        if active_ingredients = "" then none
        else
          let route := safe_join openfda "route"
          let purpose := safe_get raw "purpose" ""
          let indications := safe_get raw "indications_and_usage" ""
          if purpose = "" ∧ indications = "" then none
          else some
            { brand_name := brand_name
              generic_name := generic_name
              manufacturer := manufacturer
              product_type := product_type
              product_ndc := product_ndc
              package_ndc := package_ndc
              active_ingredients := active_ingredients
              route := route
              purpose := purpose
              indications := indications
              dosage := safe_get raw "dosage_and_administration" ""
              warnings := safe_get raw "warnings" ""
              do_not_use := safe_get raw "do_not_use" ""
              stop_use := safe_get raw "stop_use" ""
              ask_doctor := safe_get raw "ask_doctor" ""
              when_using := safe_get raw "when_using" ""
              side_effects := safe_get raw "adverse_reactions" ""
              storage := safe_get raw "storage_and_handling" ""
              keep_away_children := safe_get raw "keep_out_of_reach_of_children" "" }

/-- The `process_drug` variant built on the filter-2-free body. -/
def process_drug_noF2 (raw : RawRecord) : Except Unit (Option Drug) :=
  match lookupKey raw "openfda" with
  | some (FVal.obj m) => Except.ok (process_drug_core_noF2 raw m)
  | none => Except.ok (process_drug_core_noF2 raw [])
  | some _ => Except.error ()

/-- The `parts` list of `create_search_text`: one formatted line per field,
optional lines replaced by the empty string when their field is falsy. -/
def search_parts (drug : Drug) : List String :=
  ["Brand: " ++ drug.brand_name,
   if drug.generic_name ≠ "" then "Generic: " ++ drug.generic_name else "",
   if drug.active_ingredients ≠ "" then "Ingredients: " ++ drug.active_ingredients else "",
   if drug.purpose ≠ "" then "Purpose: " ++ drug.purpose else "",
   if drug.indications ≠ "" then "Uses: " ++ drug.indications else ""]

/-- The pre-truncation text of `create_search_text`:
`"\n".join(filter(None, parts))`. -/
def search_text_raw (drug : Drug) : String :=
  String.intercalate "\n" ((search_parts drug).filter fun s => s ≠ "")

/-- Embeds `MinimalDrugProcessor.create_search_text`: join the truthy parts
with newlines, then truncate to 2000 characters plus a literal ellipsis
when the text is longer than 2000 characters. -/
def create_search_text (drug : Drug) : String :=
  let text := search_text_raw drug
  if text.length > 2000 then text.take 2000 ++ "..." else text

/-- The processing loop of `build_minimal_database`: process every raw
record in order, attach the search text to each accepted record, and count
the skipped ones.  A Python exception from `process_drug` aborts the loop,
modelled by propagating `.error ()`. -/
def process_all : List RawRecord → Except Unit (List (Drug × String) × Nat)
  | [] => Except.ok ([], 0)
  | raw :: rest =>
    match process_drug raw with
    | Except.error e => Except.error e
    | Except.ok none =>
      match process_all rest with
      | Except.error e => Except.error e
      | Except.ok (processed, skipped) => Except.ok (processed, skipped + 1)
    | Except.ok (some drug) =>
      match process_all rest with
      | Except.error e => Except.error e
      | Except.ok (processed, skipped) =>
        Except.ok ((drug, create_search_text drug) :: processed, skipped)

/-- Parsed JSON body of one page response: a mapping whose `results` key
(when present) holds the raw records of the page. -/
abbrev PageData := List (String × List RawRecord)

/-- Python `"results" in data` / `data["results"]` on a page body. -/
def lookupPage (data : PageData) (key : String) : Option (List RawRecord) :=
  (data.find? fun p => p.1 == key).map fun p => p.2

/-- Embeds `MinimalOpenFDAClient.fetch_drug_labels_page`: the request and
parse are modelled by their outcome; the body of a successful outcome is returned
as-is, while any raised exception is absorbed and replaced by the page
`{"results": []}`. -/
def fetch_drug_labels_page (response : Except Unit PageData) : PageData :=
  match response with
  | Except.ok data => data
  | Except.error _ => [("results", [])]

/-- Loop body of `fetch_all_labels`: fetch each page in order and extend the
accumulator with the `results` of the page when the key is present. -/
def fetch_all_go : List (Except Unit PageData) → List RawRecord → List RawRecord
  | [], all_drugs => all_drugs
  | response :: rest, all_drugs =>
    match lookupPage (fetch_drug_labels_page response) "results" with
    | some results => fetch_all_go rest (all_drugs ++ results)
    | none => fetch_all_go rest all_drugs

/-- Embeds `MinimalOpenFDAClient.fetch_all_labels` over a given sequence of
per-page outcomes. -/
def fetch_all_labels (responses : List (Except Unit PageData)) : List RawRecord :=
  fetch_all_go responses []

/-- The `openfda` sub-mapping a record presents to the filter chain:
`raw.get("openfda", {})`, with non-mapping values (which raise in Python)
mapped to the empty mapping for the purpose of stating hypotheses. -/
def openfda_of (raw : RawRecord) : RawRecord :=
  match lookupKey raw "openfda" with
  | some (FVal.obj m) => m
  | _ => []

/-- A record whose `openfda` value, when present, is a mapping — exactly the
records on which `process_drug` does not raise. -/
def openfda_wf (raw : RawRecord) : Prop :=
  lookupKey raw "openfda" = none ∨ ∃ m, lookupKey raw "openfda" = some (FVal.obj m)

/-- Concrete raw record passing all seven filters; used by witnesses. -/
def exRaw : RawRecord :=
  [("openfda", FVal.obj
      [("brand_name", FVal.lst ["Advil"]),
       ("product_type", FVal.lst ["HUMAN OTC DRUG"]),
       ("product_ndc", FVal.lst ["0573-0164"]),
       ("substance_name", FVal.lst ["IBUPROFEN"])]),
   ("purpose", FVal.lst ["Pain reliever"])]

/-- The normalized record `process_drug` emits for `exRaw`. -/
def exDrug : Drug :=
  { brand_name := "Advil", generic_name := "", manufacturer := "",
    product_type := "HUMAN OTC DRUG", product_ndc := "0573-0164",
    package_ndc := "", active_ingredients := "IBUPROFEN", route := "",
    purpose := "Pain reliever", indications := "", dosage := "",
    warnings := "", do_not_use := "", stop_use := "", ask_doctor := "",
    when_using := "", side_effects := "", storage := "",
    keep_away_children := "" }

theorem length_eq_zero_iff (s : String) : s.length = 0 ↔ s = "" := by
  cases s with
  | mk data =>
    cases data with
    | nil => simp
    | cons c cs =>
      constructor
      · intro h
        simp [String.length] at h
      · intro h
        simpa using congrArg String.data h

theorem append_ne_empty_left (s t : String) (h : s ≠ "") : s ++ t ≠ "" := by
  intro h0
  have hl := congrArg String.length h0
  rw [String.length_append] at hl
  have hz : ("" : String).length = 0 := rfl
  rw [hz] at hl
  have hs : s.length = 0 := by omega
  exact h ((length_eq_zero_iff s).mp hs)

/-- C1: `safe_get`, for every mapping, key and default, returns the first
element (stringified) of a non-empty list value, a stringified non-list
scalar unchanged, and the supplied default when the key is missing, the
value is null, or the value is an empty list; being a total function it
never raises. -/
theorem safe_get_spec (data : RawRecord) (key default : String) :
    (lookupKey data key = none → safe_get data key default = default) ∧
    (lookupKey data key = some FVal.null → safe_get data key default = default) ∧
    (lookupKey data key = some (FVal.lst []) → safe_get data key default = default) ∧
    (∀ x xs, lookupKey data key = some (FVal.lst (x :: xs)) →
      safe_get data key default = pyStr (FVal.s x)) ∧
    (∀ v, lookupKey data key = some (FVal.s v) →
      safe_get data key default = pyStr (FVal.s v)) := by
  refine ⟨?_, ?_, ?_, ?_, ?_⟩ <;> intros <;> simp_all [safe_get, pyStr]

theorem safe_get_spec_witness :
    safe_get [("k", FVal.null)] "k" "d" = "d" ∧
    safe_get [("k", FVal.lst ["x", "y"])] "k" "d" = "x" ∧
    safe_get [("k", FVal.lst [])] "k" "d" = "d" ∧
    safe_get [("k", FVal.s "5")] "k" "d" = "5" ∧
    safe_get [] "k" "d" = "d" := by
  refine ⟨?_, ?_, ?_, ?_, ?_⟩
  · exact (safe_get_spec [("k", FVal.null)] "k" "d").2.1 rfl
  · exact (safe_get_spec [("k", FVal.lst ["x", "y"])] "k" "d").2.2.2.1 "x" ["y"] rfl
  · exact (safe_get_spec [("k", FVal.lst [])] "k" "d").2.2.1 rfl
  · exact (safe_get_spec [("k", FVal.s "5")] "k" "d").2.2.2.2 "5" rfl
  · exact (safe_get_spec [] "k" "d").1 rfl

/-- C3: `safe_join`, for every mapping and key, joins the stringified truthy
elements of a list value with a comma and space (falsy elements skipped),
and returns the empty string for any non-list value, including a missing
key — never stringifying a non-list value directly. -/
theorem safe_join_spec (data : RawRecord) (key : String) :
    (∀ xs, lookupKey data key = some (FVal.lst xs) →
      safe_join data key = String.intercalate ", " (xs.filter fun v => v ≠ "")) ∧
    (lookupKey data key = none → safe_join data key = "") ∧
    (∀ v, lookupKey data key = some v → (∀ xs, v ≠ FVal.lst xs) →
      safe_join data key = "") := by
  refine ⟨?_, ?_, ?_⟩
  · intro xs h
    simp [safe_join, h, pyStr]
  · intro h
    simp [safe_join, h]
    rfl
  · intro v h hv
    cases v with
    | null => simp [safe_join, h]
    | s w => simp [safe_join, h]
    | lst xs => exact absurd rfl (hv xs)
    | obj m => simp [safe_join, h]

theorem safe_join_spec_witness :
    safe_join [("k", FVal.lst ["A", "", "B"])] "k" = "A, B" ∧
    safe_join [("k", FVal.s "A")] "k" = "" ∧
    safe_join [] "k" = "" := by
  refine ⟨?_, ?_, ?_⟩
  · have h := (safe_join_spec [("k", FVal.lst ["A", "", "B"])] "k").1 ["A", "", "B"] rfl
    rw [h]
    decide
  · exact (safe_join_spec [("k", FVal.s "A")] "k").2.2 (FVal.s "A") rfl (fun xs h => by cases h)
  · exact (safe_join_spec [] "k").2.1 rfl

/-- C6: a record whose `openfda` sub-mapping is absent or empty is rejected
by `process_drug`. -/
theorem openfda_missing_or_empty_rejected (raw : RawRecord)
    (h : lookupKey raw "openfda" = none ∨ lookupKey raw "openfda" = some (FVal.obj [])) :
    process_drug raw = Except.ok none := by
  have hcore : process_drug_core raw [] = none := rfl
  rcases h with h | h <;>
    · unfold process_drug
      rw [h]
      exact congrArg Except.ok hcore

theorem openfda_missing_or_empty_rejected_witness :
    process_drug [("purpose", FVal.lst ["Pain reliever"])] = Except.ok none ∧
    process_drug [("openfda", FVal.obj [])] = Except.ok none := by
  constructor
  · exact openfda_missing_or_empty_rejected [("purpose", FVal.lst ["Pain reliever"])] (Or.inl rfl)
  · exact openfda_missing_or_empty_rejected [("openfda", FVal.obj [])] (Or.inr rfl)

theorem process_drug_core_none_of_bad_product_type (raw openfda : RawRecord)
    (h : safe_get openfda "product_type" "" ∉ common_types) :
    process_drug_core raw openfda = none := by
  simp only [process_drug_core]
  split_ifs <;> simp_all

/-- C5: a record whose extracted product type is missing or outside the
allow-set of human drug types is rejected by `process_drug` (provided the
record does not raise, i.e. its `openfda` value is a mapping when
present). -/
theorem bad_product_type_rejected (raw : RawRecord)
    (hwf : openfda_wf raw)
    (h : safe_get (openfda_of raw) "product_type" "" ∉ common_types) :
    process_drug raw = Except.ok none := by
  rcases hwf with hwf | ⟨m, hwf⟩
  · have ho : openfda_of raw = [] := by simp [openfda_of, hwf]
    rw [ho] at h
    simp [process_drug, hwf, process_drug_core_none_of_bad_product_type raw [] h]
  · have ho : openfda_of raw = m := by simp [openfda_of, hwf]
    rw [ho] at h
    simp [process_drug, hwf, process_drug_core_none_of_bad_product_type raw m h]

theorem bad_product_type_rejected_witness :
    process_drug
      [("openfda", FVal.obj
          [("brand_name", FVal.lst ["PetMed"]),
           ("product_type", FVal.lst ["VETERINARY DRUG"]),
           ("product_ndc", FVal.lst ["1234-5678"]),
           ("substance_name", FVal.lst ["IVERMECTIN"])]),
       ("purpose", FVal.lst ["Deworming"])] = Except.ok none := by
  exact bad_product_type_rejected
    [("openfda", FVal.obj
        [("brand_name", FVal.lst ["PetMed"]),
         ("product_type", FVal.lst ["VETERINARY DRUG"]),
         ("product_ndc", FVal.lst ["1234-5678"]),
         ("substance_name", FVal.lst ["IVERMECTIN"])]),
     ("purpose", FVal.lst ["Deworming"])]
    (Or.inr ⟨_, rfl⟩) (by decide)

theorem process_drug_core_filter2_agree (raw openfda : RawRecord) :
    process_drug_core raw openfda = process_drug_core_noF2 raw openfda := by
  cases openfda with
  | nil => simp [process_drug_core, process_drug_core_noF2, safe_get, lookupKey]
  | cons p rest => simp [process_drug_core, process_drug_core_noF2]

/-- C10: the explicit non-empty check on the `openfda` sub-mapping
(filter 2) is redundant — `process_drug` agrees with the variant that omits
it on every input, because an absent or empty sub-mapping already yields the
placeholder brand name and is rejected by filter 1. -/
theorem process_drug_filter2_redundant (raw : RawRecord) :
    process_drug raw = process_drug_noF2 raw := by
  unfold process_drug process_drug_noF2
  cases h : lookupKey raw "openfda" with
  | none => simp [process_drug_core_filter2_agree]
  | some v => cases v <;> simp [process_drug_core_filter2_agree]

/-- C2: every field of the record a raw drug is normalized to is a plain
string — no value in the emitted mapping is null, a list, or a nested
mapping. -/
theorem processed_fields_are_strings (raw : RawRecord) (d : Drug)
    (h : process_drug raw = Except.ok (some d)) :
    ∀ kv ∈ d.toDict, ∃ str : String, kv.2 = FVal.s str := by
  intro kv hkv
  simp only [Drug.toDict, List.mem_cons, List.mem_singleton, List.not_mem_nil, or_false] at hkv
  rcases hkv with rfl | rfl | rfl | rfl | rfl | rfl | rfl | rfl | rfl | rfl | rfl | rfl | rfl |
    rfl | rfl | rfl | rfl | rfl | rfl <;> exact ⟨_, rfl⟩

theorem processed_fields_are_strings_witness :
    ∃ str : String, (("brand_name", FVal.s exDrug.brand_name) : String × FVal).2 = FVal.s str :=
  processed_fields_are_strings exRaw exDrug rfl
    ("brand_name", FVal.s exDrug.brand_name) (List.mem_cons_self _ _)

/-- C4: the derived search text never exceeds 2003 characters; when the
naive concatenation exceeds 2000 characters the result is exactly its first
2000 characters followed by the literal ellipsis (total length 2003), and
otherwise the concatenation is returned unchanged. -/
theorem create_search_text_truncation (d : Drug) :
    (create_search_text d).length ≤ 2003 ∧
    (2000 < (search_text_raw d).length →
      create_search_text d = (search_text_raw d).take 2000 ++ "..." ∧
      (create_search_text d).length = 2003) ∧
    ((search_text_raw d).length ≤ 2000 → create_search_text d = search_text_raw d) := by
  have hdots : ("..." : String).length = 3 := rfl
  have hdata : (search_text_raw d).data.length = (search_text_raw d).length := rfl
  by_cases h : (search_text_raw d).length > 2000
  · have he : create_search_text d = (search_text_raw d).take 2000 ++ "..." := by
      simp [create_search_text, h]
    have hlen : (create_search_text d).length = 2003 := by
      rw [he, String.length_append, String.take_eq, String.mk_length, List.length_take, hdots,
        hdata]
      omega
    refine ⟨by omega, fun _ => ⟨he, hlen⟩, fun hle => absurd h (by omega)⟩
  · have he : create_search_text d = search_text_raw d := by
      simp [create_search_text, h]
    refine ⟨by rw [he]; omega, fun hgt => absurd hgt h, fun _ => he⟩

theorem create_search_text_truncation_witness :
    (create_search_text exDrug).length ≤ 2003 ∧
    ((search_text_raw exDrug).length ≤ 2000 → create_search_text exDrug = search_text_raw exDrug) ∧
    (search_text_raw exDrug).length ≤ 2000 := by
  refine ⟨(create_search_text_truncation exDrug).1,
    (create_search_text_truncation exDrug).2.2, by decide⟩

/-- C7: the pre-truncation search text is the newline join, in the fixed
order Brand, Generic, Ingredients, Purpose, Uses, of exactly those lines
whose field is non-empty: the Brand line is always present, and lines for
empty optional fields are omitted entirely rather than emitted blank. -/
theorem search_text_raw_lines (d : Drug) :
    search_text_raw d = String.intercalate "\n"
      (["Brand: " ++ d.brand_name] ++
       (if d.generic_name = "" then [] else ["Generic: " ++ d.generic_name]) ++
       (if d.active_ingredients = "" then [] else ["Ingredients: " ++ d.active_ingredients]) ++
       (if d.purpose = "" then [] else ["Purpose: " ++ d.purpose]) ++
       (if d.indications = "" then [] else ["Uses: " ++ d.indications])) := by
  have hb := append_ne_empty_left "Brand: " d.brand_name (by decide)
  have hg := append_ne_empty_left "Generic: " d.generic_name (by decide)
  have ha := append_ne_empty_left "Ingredients: " d.active_ingredients (by decide)
  have hp := append_ne_empty_left "Purpose: " d.purpose (by decide)
  have hi := append_ne_empty_left "Uses: " d.indications (by decide)
  unfold search_text_raw search_parts
  by_cases h1 : d.generic_name = "" <;> by_cases h2 : d.active_ingredients = "" <;>
    by_cases h3 : d.purpose = "" <;> by_cases h4 : d.indications = "" <;>
    simp [h1, h2, h3, h4, hb, hg, ha, hp, hi, List.filter]

/-- C8: when the processing loop of the driver completes, the accepted records
are exactly the stable filter of the input sequence (same relative order),
and the number of accepted records plus the skip count equals the number of
raw records processed. -/
theorem process_all_stable_filter (raws : List RawRecord)
    (processed : List (Drug × String)) (skipped : Nat)
    (h : process_all raws = Except.ok (processed, skipped)) :
    processed = raws.filterMap (fun raw =>
      match process_drug raw with
      | Except.ok (some d) => some (d, create_search_text d)
      | _ => none) ∧
    processed.length + skipped = raws.length := by
  induction raws generalizing processed skipped with
  | nil =>
    simp only [process_all] at h
    cases h
    simp
  | cons raw rest ih =>
    rw [process_all] at h
    cases hp : process_drug raw with
    | error e =>
      rw [hp] at h
      cases h
    | ok o =>
      rw [hp] at h
      cases o with
      | none =>
        cases hrest : process_all rest with
        | error e =>
          rw [hrest] at h
          cases h
        | ok pair =>
          obtain ⟨ps, sk⟩ := pair
          rw [hrest] at h
          simp only [Except.ok.injEq, Prod.mk.injEq] at h
          obtain ⟨h5, h6⟩ := h
          subst h5
          subst h6
          obtain ⟨ih1, ih2⟩ := ih ps sk hrest
          constructor
          · rw [List.filterMap_cons]
            simp only [hp]
            exact ih1
          · simp only [List.length_cons]
            omega
      | some d =>
        cases hrest : process_all rest with
        | error e =>
          rw [hrest] at h
          cases h
        | ok pair =>
          obtain ⟨ps, sk⟩ := pair
          rw [hrest] at h
          simp only [Except.ok.injEq, Prod.mk.injEq] at h
          obtain ⟨h5, h6⟩ := h
          subst h5
          subst h6
          obtain ⟨ih1, ih2⟩ := ih ps sk hrest
          constructor
          · rw [List.filterMap_cons]
            simp only [hp]
            rw [ih1]
          · simp only [List.length_cons, List.length_cons]
            omega

theorem process_all_stable_filter_witness :
    ([(exDrug, create_search_text exDrug)] : List (Drug × String)) =
      List.filterMap (fun raw =>
        match process_drug raw with
        | Except.ok (some d) => some (d, create_search_text d)
        | _ => none) [exRaw, []] ∧
    ([(exDrug, create_search_text exDrug)] : List (Drug × String)).length + 1 =
      ([exRaw, []] : List RawRecord).length :=
  process_all_stable_filter [exRaw, []] [(exDrug, create_search_text exDrug)] 1 rfl

theorem fetch_all_go_append (l1 l2 : List (Except Unit PageData)) (acc : List RawRecord) :
    fetch_all_go (l1 ++ l2) acc = fetch_all_go l2 (fetch_all_go l1 acc) := by
  induction l1 generalizing acc with
  | nil => rfl
  | cons r rest ih =>
    rw [List.cons_append, fetch_all_go, fetch_all_go]
    cases lookupPage (fetch_drug_labels_page r) "results" with
    | some results => exact ih (acc ++ results)
    | none => exact ih acc

/-- C9: per-page fetch errors are fully absorbed — a failed request or parse
makes `fetch_drug_labels_page` return the empty page `results: []` instead
of propagating the exception, and in `fetch_all_labels` a page whose body
lacks a `results` key contributes zero records while the loop continues
with the remaining pages. -/
theorem fetch_errors_absorbed (e : Unit) (pre post : List (Except Unit PageData))
    (data : PageData) (h : lookupPage data "results" = none) :
    fetch_drug_labels_page (Except.error e) = [("results", [])] ∧
    fetch_all_labels (pre ++ Except.ok data :: post) = fetch_all_labels (pre ++ post) := by
  constructor
  · rfl
  · unfold fetch_all_labels
    rw [fetch_all_go_append, fetch_all_go_append]
    rw [fetch_all_go]
    have hd : fetch_drug_labels_page (Except.ok data) = data := rfl
    rw [hd, h]

theorem fetch_errors_absorbed_witness :
    fetch_drug_labels_page (Except.error ()) = [("results", [])] ∧
    fetch_all_labels [Except.error (), Except.ok [], Except.ok [("results", [exRaw])]] =
      fetch_all_labels [Except.error (), Except.ok [("results", [exRaw])]] :=
  fetch_errors_absorbed () [Except.error ()] [Except.ok [("results", [exRaw])]] [] rfl

end MinimalDrugFetcher
